import Mathlib

/-!
Verification of the Fortmix ERP backend (Express + SQLite / Supabase variants).

The repository ships three copies of the same REST backend:
* an embedded-store variant (better-sqlite3) where `POST /api/sales` runs inside
  `db.transaction(...)`, the stock write is the atomic SQL statement
  `UPDATE products SET stock_quantity = stock_quantity - ? WHERE id = ?`, and the
  dashboard queries are plain SQL aggregates;
* a hybrid variant adding a `cost_price` snapshot column on `sale_items` and a
  net-profit dashboard aggregate;
* a hosted-store variant (supabase-js) where the same sale is recorded as
  independent sequential calls with no rollback, the stock write is a
  read-modify-write pair, and the critical-stock filter is
  `.lte('stock_quantity', 'min_stock')`.

Below, the relational rows are Lean structures, a database is a record of row
lists (ids are 1-based positions, matching AUTOINCREMENT on tables that are
never deleted from), and every endpoint handler is a pure function from a
credential, its request arguments and a database to a response and a new
database.  Timestamps are abstract `Nat` values supplied to the handlers; a
date filter is an arbitrary boolean predicate on timestamps, covering both the
explicit `[from, to]` range and the `current month` / `today` defaults.
-/

namespace Fortmix

/-- The identity carried by a verified bearer token (`jwt.sign({id, username, role})`). -/
structure AuthUser where
  id : Nat
  username : String
  role : String
deriving Repr, DecidableEq

/-- A row of the `users` table. -/
structure UserRow where
  id : Nat
  username : String
  password : String
  name : String
  role : String
deriving Repr, DecidableEq

/-- A row of the `products` table. -/
structure Product where
  id : Nat
  code : String
  name : String
  category : String
  price : Rat
  cost_price : Rat
  stock_quantity : Int
  min_stock : Int
  unit : String
deriving Repr, DecidableEq

/-- A row of the `sales` table.  `created_at` is an abstract timestamp. -/
structure Sale where
  id : Nat
  user_id : Nat
  total : Rat
  payment_method : String
  created_at : Nat
deriving Repr, DecidableEq

/-- A row of the `sale_items` table.  The `cost_price` snapshot column exists in
the hybrid variant's schema; the hosted variant's insert omits it, so the field
is optional (`IFNULL(si.cost_price, 0)` reads it back). -/
structure SaleItem where
  id : Nat
  sale_id : Nat
  product_id : Nat
  quantity : Int
  price : Rat
  cost_price : Option Rat
deriving Repr, DecidableEq

/-- `type TEXT CHECK(type IN ('IN', 'OUT', 'ADJ'))` on `stock_movements`. -/
inductive MovementType
  | IN
  | OUT
  | ADJ
deriving Repr, DecidableEq

/-- A row of the `stock_movements` table. -/
structure StockMovement where
  id : Nat
  product_id : Nat
  user_id : Nat
  type : MovementType
  quantity : Int
  reason : String
deriving Repr, DecidableEq

/-- A row of the `audit_logs` table. -/
structure AuditLog where
  id : Nat
  user_id : Nat
  action : String
  entity : String
  details : String
deriving Repr, DecidableEq

/-- The relational store: one list of rows per table, in insertion order. -/
structure Db where
  users : List UserRow
  products : List Product
  sales : List Sale
  sale_items : List SaleItem
  stock_movements : List StockMovement
  audit_logs : List AuditLog
deriving Repr, DecidableEq

/-- An HTTP response, reduced to what the handlers produce: `res.json({id})`,
`res.json({success:true})`, some other 200 payload, or `res.status(s).json({message})`. -/
inductive Resp
  | okId (id : Nat)
  | okSuccess
  | okData
  | err (status : Nat) (message : String)
deriving Repr, DecidableEq

/-- The outcome of `authenticateToken`: no Authorization header, a header whose
token fails `jwt.verify`, or a verified token carrying an `AuthUser`. -/
inductive Cred
  | missing
  | invalid
  | valid (u : AuthUser)
deriving Repr, DecidableEq

/-- `authenticateToken`: a missing token is answered `401 Acesso negado`, a token
rejected by `jwt.verify` is answered `403 Token inválido`, otherwise the decoded
user is attached to the request. -/
def authGate : Cred → Except Resp AuthUser
  | Cred.missing => Except.error (Resp.err 401 "Acesso negado")
  | Cred.invalid => Except.error (Resp.err 403 "Token inválido")
  | Cred.valid u => Except.ok u

/-- `logAudit`: `INSERT INTO audit_logs (user_id, action, entity, details)`. -/
def logAudit (db : Db) (userId : Nat) (action entity details : String) : Db :=
  { db with audit_logs := db.audit_logs ++
      [{ id := db.audit_logs.length + 1, user_id := userId,
         action := action, entity := entity, details := details }] }

/-- `SELECT ... FROM products WHERE id = ?` (first row, ids are unique in practice). -/
def findProduct (db : Db) (pid : Nat) : Option Product :=
  db.products.find? (fun p => p.id == pid)

/-- The `stock_quantity` of the product row with id `pid`, if any. -/
def stockOf (db : Db) (pid : Nat) : Option Int :=
  (findProduct db pid).map (fun p => p.stock_quantity)

/-- One entry of the `items` array of a `POST /api/sales` body: `{id, quantity, price}`
where `id` is the product id. -/
structure LineItem where
  id : Nat
  quantity : Int
  price : Rat
deriving Repr, DecidableEq

/-- The body of the per-item loop of the embedded-store `POST /api/sales`:
read the product's current `cost_price` (0 when the product is missing), insert
the `sale_items` row with that snapshot, run the atomic decrement
`UPDATE products SET stock_quantity = stock_quantity - ? WHERE id = ?`, and
insert the `OUT` stock movement.  (The first backend variant has no
`cost_price` column; the hybrid variant is modelled, a superset.) -/
def applySaleItem (uid saleId : Nat) (db : Db) (it : LineItem) : Db :=
  let costPrice : Rat :=
    match findProduct db it.id with
    | some p => p.cost_price
    | none => 0
  let db1 : Db := { db with sale_items := db.sale_items ++
      [{ id := db.sale_items.length + 1, sale_id := saleId, product_id := it.id,
         quantity := it.quantity, price := it.price, cost_price := some costPrice }] }
  let db2 : Db := { db1 with products := db1.products.map (fun p =>
      if p.id == it.id then { p with stock_quantity := p.stock_quantity - it.quantity } else p) }
  { db2 with stock_movements := db2.stock_movements ++
      [{ id := db2.stock_movements.length + 1, product_id := it.id, user_id := uid,
         type := MovementType.OUT, quantity := it.quantity,
         reason := "Venda #" ++ toString saleId }] }

/-- The embedded-store `POST /api/sales`: inside one `db.transaction`, insert the
sale header, process each line item in order, then append the audit row.  In the
embedded store (no foreign-key enforcement is enabled) none of these writes can
fail, so the transaction commits and the handler answers `{id: saleId}`. -/
def recordSale (c : Cred) (items : List LineItem) (pm : String) (total : Rat)
    (now : Nat) (db : Db) : Resp × Db :=
  match authGate c with
  | Except.error r => (r, db)
  | Except.ok u =>
    let saleId := db.sales.length + 1
    let db1 : Db := { db with sales := db.sales ++
        [{ id := saleId, user_id := u.id, total := total,
           payment_method := pm, created_at := now }] }
    let db2 : Db := items.foldl (applySaleItem u.id saleId) db1
    let db3 : Db := logAudit db2 u.id "SALE" "SALES"
        ("Venda realizada: ID #" ++ toString saleId ++ ", Total R$ " ++ toString total)
    (Resp.okId saleId, db3)

/-- `true` when a `products` row with id `pid` exists (the foreign-key check the
hosted Postgres store performs on `sale_items.product_id` and
`stock_movements.product_id`). -/
def productExists (db : Db) (pid : Nat) : Bool :=
  db.products.any (fun p => p.id == pid)

/-- First call of the per-item loop of the hosted-store `POST /api/sales`:
`supabase.from('sale_items').insert(...)`.
The row is stored only when the product foreign key holds; the call's error is
never read. -/
def hostedInsertItem (saleId : Nat) (db : Db) (it : LineItem) : Db :=
  if productExists db it.id then
    { db with sale_items := db.sale_items ++
        [{ id := db.sale_items.length + 1, sale_id := saleId, product_id := it.id,
           quantity := it.quantity, price := it.price, cost_price := none }] }
  else db

/-- Second call pair: read the product's `stock_quantity`, then write back the
difference computed in application memory; nothing happens when the product is
missing. -/
def hostedUpdateStock (db : Db) (it : LineItem) : Db :=
  match findProduct db it.id with
  | some p =>
    { db with products := db.products.map (fun q =>
        if q.id == it.id then { q with stock_quantity := p.stock_quantity - it.quantity }
        else q) }
  | none => db

/-- Third call: `supabase.from('stock_movements').insert(...)`, again stored
only when the product foreign key holds, error never read. -/
def hostedInsertMovement (uid saleId : Nat) (db : Db) (it : LineItem) : Db :=
  if productExists db it.id then
    { db with stock_movements := db.stock_movements ++
        [{ id := db.stock_movements.length + 1, product_id := it.id, user_id := uid,
           type := MovementType.OUT, quantity := it.quantity,
           reason := "Venda #" ++ toString saleId }] }
  else db

/-- The body of the per-item loop of the hosted-store `POST /api/sales`:
three sequential supabase calls whose errors are never checked. -/
def applySaleItemHosted (uid saleId : Nat) (db : Db) (it : LineItem) : Db :=
  hostedInsertMovement uid saleId (hostedUpdateStock (hostedInsertItem saleId db it) it) it

/-- The hosted-store `POST /api/sales`: the sale-header insert is the only write
whose error is checked (`if (saleError) return 500 'Erro ao processar venda'`,
e.g. on a foreign-key violation of `user_id`); the item writes run sequentially
with their errors swallowed, and the handler then answers `{id: saleId}`. -/
def recordSaleHosted (c : Cred) (items : List LineItem) (pm : String) (total : Rat)
    (now : Nat) (db : Db) : Resp × Db :=
  match authGate c with
  | Except.error r => (r, db)
  | Except.ok u =>
    if db.users.any (fun w => w.id == u.id) then
      let saleId := db.sales.length + 1
      let db1 : Db := { db with sales := db.sales ++
          [{ id := saleId, user_id := u.id, total := total,
             payment_method := pm, created_at := now }] }
      let db2 : Db := items.foldl (applySaleItemHosted u.id saleId) db1
      let db3 : Db := logAudit db2 u.id "SALE" "SALES"
          ("Venda realizada: ID #" ++ toString saleId ++ ", Total R$ " ++ toString total)
      (Resp.okId saleId, db3)
    else (Resp.err 500 "Erro ao processar venda", db)

/-- The non-id fields of a product create/update request body (the insert and the
update statements list `code, name, category, price, cost_price, min_stock, unit`
and never `stock_quantity`, which defaults to 0 on create). -/
structure ProductFields where
  code : String
  name : String
  category : String
  price : Rat
  cost_price : Rat
  min_stock : Int
  unit : String
deriving Repr, DecidableEq

/-- `POST /api/products`: forbidden for role `Vendedor`; the insert fails with
`400` when the UNIQUE constraint on `code` is violated; otherwise the product is
stored with `stock_quantity` 0 and an audit row is appended. -/
def postProducts (c : Cred) (f : ProductFields) (db : Db) : Resp × Db :=
  match authGate c with
  | Except.error r => (r, db)
  | Except.ok u =>
    if u.role == "Vendedor" then (Resp.err 403 "Sem permissão", db)
    else if db.products.any (fun p => p.code == f.code) then
      (Resp.err 400 "Erro ao criar produto (Código duplicado?)", db)
    else
      let db1 : Db := { db with products := db.products ++
          [{ id := db.products.length + 1, code := f.code, name := f.name,
             category := f.category, price := f.price, cost_price := f.cost_price,
             stock_quantity := 0, min_stock := f.min_stock, unit := f.unit }] }
      let db2 : Db := logAudit db1 u.id "CREATE" "PRODUCT"
          ("Produto criado: " ++ f.name ++ " (" ++ f.code ++ ")")
      (Resp.okId (db.products.length + 1), db2)

/-- `PUT /api/products/:id`: forbidden for role `Vendedor`; the UPDATE rewrites
every `products` row whose id matches (a no-op when none does); it fails with
`400` only when it would set an existing row's `code` equal to another row's
(UNIQUE violation); on success an audit row is appended and `{success:true}` is
returned - also when no row matched. -/
def putProduct (c : Cred) (pid : Nat) (f : ProductFields) (db : Db) : Resp × Db :=
  match authGate c with
  | Except.error r => (r, db)
  | Except.ok u =>
    if u.role == "Vendedor" then (Resp.err 403 "Sem permissão", db)
    else if (db.products.any (fun p => p.id == pid)) &&
        (db.products.any (fun p => p.id != pid && p.code == f.code)) then
      (Resp.err 400 "Erro ao atualizar produto", db)
    else
      let db1 : Db := { db with products := db.products.map (fun p =>
          if p.id == pid then
            { p with code := f.code, name := f.name, category := f.category,
                     price := f.price, cost_price := f.cost_price,
                     min_stock := f.min_stock, unit := f.unit }
          else p) }
      let db2 : Db := logAudit db1 u.id "UPDATE" "PRODUCT"
          ("Produto atualizado: " ++ f.name ++ " (" ++ f.code ++ ")")
      (Resp.okSuccess, db2)

/-- Password hashing (bcrypt) is an external collaborator outside this
specification's scope; it is modelled as the identity on strings, with
`bcrypt.compareSync` becoming string equality. -/
def hashPassword (s : String) : String := s

/-- `POST /api/auth/login`: look the user up by username, compare the password,
and on success append one `LOGIN` audit row; otherwise `401`. -/
def login (username password : String) (db : Db) : Resp × Db :=
  match db.users.find? (fun w => w.username == username) with
  | some w =>
    if hashPassword password == w.password then
      (Resp.okData, logAudit db w.id "LOGIN" "AUTH" "Usuário realizou login no sistema")
    else (Resp.err 401 "Usuário ou senha inválidos", db)
  | none => (Resp.err 401 "Usuário ou senha inválidos", db)

/-- `GET /api/users`: restricted to role `Dono`; read-only. -/
def getUsers (c : Cred) (db : Db) : Resp × Db :=
  match authGate c with
  | Except.error r => (r, db)
  | Except.ok u =>
    if u.role != "Dono" then (Resp.err 403 "Acesso negado", db)
    else (Resp.okData, db)

/-- `GET /api/audit`: restricted to role `Dono`; read-only. -/
def getAudit (c : Cred) (db : Db) : Resp × Db :=
  match authGate c with
  | Except.error r => (r, db)
  | Except.ok u =>
    if u.role != "Dono" then (Resp.err 403 "Acesso restrito ao proprietário", db)
    else (Resp.okData, db)

/-- `POST /api/users`: restricted to role `Dono`; fails with `400` on a duplicate
username (UNIQUE violation), otherwise inserts the user (hashed password) and
appends an audit row. -/
def postUsers (c : Cred) (username password name role : String) (db : Db) : Resp × Db :=
  match authGate c with
  | Except.error r => (r, db)
  | Except.ok u =>
    if u.role != "Dono" then (Resp.err 403 "Acesso negado", db)
    else if db.users.any (fun w => w.username == username) then
      (Resp.err 400 "Erro ao criar usuário (Login já existe?)", db)
    else
      let db1 : Db := { db with users := db.users ++
          [{ id := db.users.length + 1, username := username,
             password := hashPassword password, name := name, role := role }] }
      let db2 : Db := logAudit db1 u.id "CREATE" "USER"
          ("Usuário criado: " ++ username ++ " (" ++ role ++ ")")
      (Resp.okId (db.users.length + 1), db2)

/-- `GET /api/products`: any authenticated user; read-only. -/
def getProducts (c : Cred) (db : Db) : Resp × Db :=
  match authGate c with
  | Except.error r => (r, db)
  | Except.ok _ => (Resp.okData, db)

/-- `GET /api/stock/movements`: any authenticated user; read-only. -/
def getMovements (c : Cred) (db : Db) : Resp × Db :=
  match authGate c with
  | Except.error r => (r, db)
  | Except.ok _ => (Resp.okData, db)

/-- `GET /api/reports/sales`: any authenticated user; read-only. -/
def getReports (c : Cred) (db : Db) : Resp × Db :=
  match authGate c with
  | Except.error r => (r, db)
  | Except.ok _ => (Resp.okData, db)

/-- `GET /api/dashboard/stats`: any authenticated user; read-only. -/
def getDashboard (c : Cred) (db : Db) : Resp × Db :=
  match authGate c with
  | Except.error r => (r, db)
  | Except.ok _ => (Resp.okData, db)

/-- The dashboard net-profit aggregate of the hybrid variant, both of its paths:
`SELECT SUM(si.quantity * (si.price - IFNULL(si.cost_price, 0))) FROM sale_items si
JOIN sales s ON si.sale_id = s.id` under a date filter on `s.created_at`
(either `BETWEEN ? AND ?` or the current-month default, abstracted as `inR`). -/
def netProfit (inR : Nat → Bool) (db : Db) : Rat :=
  (db.sale_items.filter (fun si =>
      match db.sales.find? (fun s => s.id == si.sale_id) with
      | some s => inR s.created_at
      | none => false)).foldl
    (fun acc si => acc + (si.quantity : Rat) * (si.price - si.cost_price.getD 0)) 0

/-- Modelled from the spec: net profit is "Σ over SaleItem in range of
`quantity * (price − cost_price)` (cost_price treated as 0 if absent) — joined
through Sale to apply the date filter".  Stated independently of `netProfit`
(which embeds the SQL aggregate) so the two can be compared. -/
def netProfitSpec (inR : Nat → Bool) (db : Db) : Rat :=
  ((db.sale_items.filter (fun si =>
      match db.sales.find? (fun s => s.id == si.sale_id) with
      | some s => inR s.created_at
      | none => false)).map
    (fun si => (si.quantity : Rat) * (si.price - si.cost_price.getD 0))).sum

/-- The embedded-variant critical-stock count:
`SELECT COUNT(*) FROM products WHERE stock_quantity <= min_stock`.  The handler
receives optional `from`/`to` query parameters, but this query takes no
parameters, so they are accepted and ignored. -/
def criticalStock (_range : Option (Nat × Nat)) (db : Db) : Nat :=
  (db.products.filter (fun p => decide (p.stock_quantity ≤ p.min_stock))).length

/-- The hosted variant's attempt at the same count:
`.lte('stock_quantity', 'min_stock')` sends the literal string `min_stock` as the
comparison value, so PostgREST tries to cast that string to an integer; the cast
fails, no count comes back, and the handler's `criticalStockCount || 0` yields 0.
First, the integer cast Postgres applies to a filter literal: an all-digit
string (optionally signed) parses, anything else - such as `min_stock` - is a
cast error. -/
def castIntLiteral (s : String) : Option Int :=
  match s.data with
  | [] => none
  | c :: cs =>
    let ds := if c = '-' then cs else c :: cs
    if ds.all (fun d => d.isDigit) && !ds.isEmpty then
      some ((if c = '-' then -1 else 1)
        * ds.foldl (fun a d => a * 10 + ((d.toNat : Int) - 48)) 0)
    else none

/-- The hosted critical-stock query: count of products whose `stock_quantity` is
at most the integer value of the literal; a cast failure means no count. -/
def countStockLteLiteral (db : Db) (lit : String) : Option Nat :=
  match castIntLiteral lit with
  | some v => some ((db.products.filter (fun p => decide (p.stock_quantity ≤ v))).length)
  | none => none

/-- The `criticalStock` field of the hosted dashboard response. -/
def criticalStockHosted (db : Db) : Nat :=
  (countStockLteLiteral db "min_stock").getD 0

/-- One entry of the `topProducts` list of `GET /api/reports/sales`. -/
structure ProductStat where
  name : String
  total_qty : Int
  total_revenue : Rat
deriving Repr, DecidableEq

/-- The sale items that fall in the report range: `sale_items` joined to `sales`
through `sale_id` with the date filter applied to the parent sale. -/
def itemsInRange (inR : Nat → Bool) (db : Db) : List SaleItem :=
  db.sale_items.filter (fun si =>
    match db.sales.find? (fun s => s.id == si.sale_id) with
    | some s => inR s.created_at
    | none => false)

/-- The product ids occurring among `items`, first occurrence first (the
`GROUP BY p.id` groups of the SQL query / the hybrid variant's in-memory
`productStats` object, which is keyed by `item.product_id`). -/
def collectPids (items : List SaleItem) : List Nat :=
  items.foldl (fun acc si => if acc.contains si.product_id then acc else acc ++ [si.product_id]) []

/-- One group of the top-products aggregation:
`SUM(si.quantity)` and `SUM(si.quantity * si.price)` over the items of one product. -/
def statFor (db : Db) (items : List SaleItem) (pid : Nat) : ProductStat :=
  let its := items.filter (fun si => si.product_id == pid)
  { name := match findProduct db pid with | some p => p.name | none => ""
    total_qty := (its.map (fun si => si.quantity)).sum
    total_revenue := (its.map (fun si => (si.quantity : Rat) * si.price)).sum }

/-- Insertion into a list kept in descending `total_revenue` order, placing the
new entry after existing entries of equal revenue (the stable order produced by
`ORDER BY total_revenue DESC` and by JavaScript's stable
`sort((a, b) => b.total_revenue - a.total_revenue)`). -/
def insertByRevenue (x : ProductStat) : List ProductStat → List ProductStat
  | [] => [x]
  | y :: ys =>
    if y.total_revenue < x.total_revenue then x :: y :: ys
    else y :: insertByRevenue x ys

/-- Stable sort of the product groups by descending `total_revenue`. -/
def sortByRevenueDesc : List ProductStat → List ProductStat
  | [] => []
  | x :: xs => insertByRevenue x (sortByRevenueDesc xs)

/-- The `topProducts` list of `GET /api/reports/sales` as computed by the SQL
paths (`GROUP BY p.id ORDER BY total_revenue DESC LIMIT 10`, with the date
filter applied through the join on `sales`) and by the hybrid variant's
in-memory path (which looks every item's parent sale up in the range-filtered
`sales` result and keys its groups by `product_id`): group the in-range sale
items by product id, sort the groups by descending total revenue, keep the
first 10.  The hosted-only variant computes a different list - see
`topProductsHosted`. -/
def topProducts (inR : Nat → Bool) (db : Db) : List ProductStat :=
  let items := itemsInRange inR db
  (sortByRevenueDesc ((collectPids items).map (statFor db items))).take 10

/-- The product name a hosted report row carries for a sale item:
`item.products?.name`, the name of the joined product row. -/
def productNameOf (db : Db) (si : SaleItem) : String :=
  match findProduct db si.product_id with
  | some p => p.name
  | none => ""

/-- The group keys of the hosted-only variant's `productStats` object: product
*names*, in first-occurrence order - two distinct products sharing a name land
in the same group. -/
def collectNames (db : Db) (items : List SaleItem) : List String :=
  items.foldl (fun acc si =>
    if acc.contains (productNameOf db si) then acc
    else acc ++ [productNameOf db si]) []

/-- One group of the hosted-only variant's in-memory aggregation:
`total_qty += item.quantity` and `total_revenue += item.quantity * item.price`
over every fetched item whose product carries this name. -/
def statForName (db : Db) (items : List SaleItem) (n : String) : ProductStat :=
  let its := items.filter (fun si => productNameOf db si == n)
  { name := n
    total_qty := (its.map (fun si => si.quantity)).sum
    total_revenue := (its.map (fun si => (si.quantity : Rat) * si.price)).sum }

/-- The hosted-only variant's `topProducts`: the handler receives the `from`/`to`
query parameters, but the `if (from && to)` branch of its items query is empty
(the in-code comment defers the filter), so every `sale_items` row is fetched
regardless of the requested range; the rows are then grouped by product name,
sorted by descending revenue and sliced to 10. -/
def topProductsHosted (_range : Option (Nat × Nat)) (db : Db) : List ProductStat :=
  (sortByRevenueDesc
    ((collectNames db db.sale_items).map (statForName db db.sale_items))).take 10

/-- One API call with its request data; the two sale-recording variants are both
listed, every other handler is shared by the variants up to the storage backend. -/
inductive ApiOp
  | opLogin (username password : String)
  | opDashboard (c : Cred)
  | opGetProducts (c : Cred)
  | opPostProducts (c : Cred) (f : ProductFields)
  | opPutProduct (c : Cred) (pid : Nat) (f : ProductFields)
  | opRecordSale (c : Cred) (items : List LineItem) (pm : String) (total : Rat) (now : Nat)
  | opRecordSaleHosted (c : Cred) (items : List LineItem) (pm : String) (total : Rat) (now : Nat)
  | opGetMovements (c : Cred)
  | opGetAudit (c : Cred)
  | opGetUsers (c : Cred)
  | opPostUsers (c : Cred) (username password name role : String)
  | opGetReports (c : Cred)

/-- Dispatch an API call to its handler. -/
def runOp : ApiOp → Db → Resp × Db
  | ApiOp.opLogin username password, db => login username password db
  | ApiOp.opDashboard c, db => getDashboard c db
  | ApiOp.opGetProducts c, db => getProducts c db
  | ApiOp.opPostProducts c f, db => postProducts c f db
  | ApiOp.opPutProduct c pid f, db => putProduct c pid f db
  | ApiOp.opRecordSale c items pm total now, db => recordSale c items pm total now db
  | ApiOp.opRecordSaleHosted c items pm total now, db => recordSaleHosted c items pm total now db
  | ApiOp.opGetMovements c, db => getMovements c db
  | ApiOp.opGetAudit c, db => getAudit c db
  | ApiOp.opGetUsers c, db => getUsers c db
  | ApiOp.opPostUsers c username password name role, db => postUsers c username password name role db
  | ApiOp.opGetReports c, db => getReports c db

/-!  ### Concurrency model of the stock write

Two concurrent `POST /api/sales` handlers touching the same product are modelled
as two threads whose programs are lists of primitive actions on the shared
`stock_quantity` cell, interleaved by an arbitrary schedule.  The embedded
variant's stock write is the single SQL statement
`UPDATE products SET stock_quantity = stock_quantity - ?` (one atomic action);
the hosted variant first reads `stock_quantity` into application memory
(`select('stock_quantity')`) and then writes back the computed difference
(`update({stock_quantity: newStock})`) - two separate actions. -/

/-- A primitive action on the shared stock cell. -/
inductive Act
  | atomicDec (q : Int)
  | readStock
  | writeStock (q : Int)
deriving Repr, DecidableEq

/-- A thread: its application-memory register and its remaining actions. -/
structure ThreadSt where
  reg : Int
  acts : List Act
deriving Repr, DecidableEq

/-- Execute one action of a thread against the shared stock value.
`atomicDec q` subtracts in place; `readStock` copies the stock into the
register; `writeStock q` stores `reg - q` (the hosted handler computes
`newStock = stock_read - item.quantity` from its earlier read). -/
def stepThread (s : Int) (t : ThreadSt) : Int × ThreadSt :=
  match t.acts with
  | [] => (s, t)
  | Act.atomicDec q :: rest => (s - q, { t with acts := rest })
  | Act.readStock :: rest => (s, { reg := s, acts := rest })
  | Act.writeStock q :: rest => (t.reg - q, { t with acts := rest })

/-- Run a schedule: `false` steps thread 1, `true` steps thread 2. -/
def execSched : List Bool → Int → ThreadSt → ThreadSt → Int × ThreadSt × ThreadSt
  | [], s, t1, t2 => (s, t1, t2)
  | b :: bs, s, t1, t2 =>
    if b then
      let r := stepThread s t2
      execSched bs r.1 t1 r.2
    else
      let r := stepThread s t1
      execSched bs r.1 r.2 t2

/-- The embedded variant's stock write for one line item of quantity `q`. -/
def atomicDecProg (q : Int) : List Act := [Act.atomicDec q]

/-- The hosted variant's stock write for one line item of quantity `q`:
a read followed by a write of the value computed from that read. -/
def rmwProg (q : Int) : List Act := [Act.readStock, Act.writeStock q]

/-- The quantity still to be subtracted by the `atomicDec` actions of a program. -/
def pendingDec : List Act → Int
  | [] => 0
  | Act.atomicDec q :: rest => q + pendingDec rest
  | Act.readStock :: rest => pendingDec rest
  | Act.writeStock _ :: rest => pendingDec rest

/-! ### Helper lemmas -/

theorem applySaleItem_users (uid saleId : Nat) (db : Db) (it : LineItem) :
    (applySaleItem uid saleId db it).users = db.users := rfl

theorem applySaleItem_sales (uid saleId : Nat) (db : Db) (it : LineItem) :
    (applySaleItem uid saleId db it).sales = db.sales := rfl

theorem applySaleItem_audit (uid saleId : Nat) (db : Db) (it : LineItem) :
    (applySaleItem uid saleId db it).audit_logs = db.audit_logs := rfl

theorem applySaleItem_items_pre (uid saleId : Nat) (db : Db) (it : LineItem) :
    db.sale_items <+: (applySaleItem uid saleId db it).sale_items :=
  ⟨_, rfl⟩

theorem applySaleItem_movs_pre (uid saleId : Nat) (db : Db) (it : LineItem) :
    db.stock_movements <+: (applySaleItem uid saleId db it).stock_movements :=
  ⟨_, rfl⟩

theorem applySaleItem_items_length (uid saleId : Nat) (db : Db) (it : LineItem) :
    (applySaleItem uid saleId db it).sale_items.length = db.sale_items.length + 1 := by
  simp [applySaleItem]

theorem applySaleItem_movs_length (uid saleId : Nat) (db : Db) (it : LineItem) :
    (applySaleItem uid saleId db it).stock_movements.length
      = db.stock_movements.length + 1 := by
  simp [applySaleItem]

theorem applySaleItem_movs_out (uid saleId : Nat) (db : Db) (it : LineItem) :
    ∀ m ∈ (applySaleItem uid saleId db it).stock_movements,
      m ∈ db.stock_movements ∨ m.type = MovementType.OUT := by
  intro m hm
  have : m ∈ db.stock_movements ++
      [{ id := db.stock_movements.length + 1, product_id := it.id, user_id := uid,
         type := MovementType.OUT, quantity := it.quantity,
         reason := "Venda #" ++ toString saleId : StockMovement }] := hm
  rcases List.mem_append.mp this with h | h
  · exact Or.inl h
  · right
    rcases List.mem_singleton.mp h with rfl
    rfl

/-- The per-item loop of the embedded sale: table-level effects of the whole fold. -/
theorem foldl_applySaleItem_fields (uid saleId : Nat) (items : List LineItem) (db : Db) :
    (items.foldl (applySaleItem uid saleId) db).users = db.users ∧
    (items.foldl (applySaleItem uid saleId) db).sales = db.sales ∧
    (items.foldl (applySaleItem uid saleId) db).audit_logs = db.audit_logs ∧
    (items.foldl (applySaleItem uid saleId) db).sale_items.length
      = db.sale_items.length + items.length ∧
    (items.foldl (applySaleItem uid saleId) db).stock_movements.length
      = db.stock_movements.length + items.length ∧
    db.sale_items <+: (items.foldl (applySaleItem uid saleId) db).sale_items ∧
    db.stock_movements <+: (items.foldl (applySaleItem uid saleId) db).stock_movements := by
  induction items generalizing db with
  | nil =>
    exact ⟨rfl, rfl, rfl, rfl, rfl, List.prefix_rfl, List.prefix_rfl⟩
  | cons it items ih =>
    obtain ⟨h1, h2, h3, h4, h5, h6, h7⟩ := ih (applySaleItem uid saleId db it)
    refine ⟨?_, ?_, ?_, ?_, ?_, ?_, ?_⟩
    · rw [List.foldl_cons, h1, applySaleItem_users]
    · rw [List.foldl_cons, h2, applySaleItem_sales]
    · rw [List.foldl_cons, h3, applySaleItem_audit]
    · rw [List.foldl_cons, h4, applySaleItem_items_length]
      simp [Nat.add_assoc, Nat.add_comm 1 items.length]
    · rw [List.foldl_cons, h5, applySaleItem_movs_length]
      simp [Nat.add_assoc, Nat.add_comm 1 items.length]
    · exact (applySaleItem_items_pre uid saleId db it).trans h6
    · exact (applySaleItem_movs_pre uid saleId db it).trans h7

/-- Every stock movement present after the fold either predates it or is `OUT`. -/
theorem foldl_applySaleItem_out (uid saleId : Nat) (items : List LineItem) (db : Db) :
    ∀ m ∈ (items.foldl (applySaleItem uid saleId) db).stock_movements,
      m ∈ db.stock_movements ∨ m.type = MovementType.OUT := by
  induction items generalizing db with
  | nil => exact fun m hm => Or.inl hm
  | cons it items ih =>
    intro m hm
    rw [List.foldl_cons] at hm
    rcases ih (applySaleItem uid saleId db it) m hm with h | h
    · exact applySaleItem_movs_out uid saleId db it m h
    · exact Or.inr h

/-- `find?` by id commutes with a map that preserves ids. -/
theorem find?_map_id_eq (g : Product → Product) (hg : ∀ p, (g p).id = p.id)
    (pid : Nat) (l : List Product) :
    (l.map g).find? (fun p => p.id == pid) = (l.find? (fun p => p.id == pid)).map g := by
  induction l with
  | nil => rfl
  | cons a l ih =>
    rw [List.map_cons, List.find?_cons, List.find?_cons]
    show (match ((g a).id == pid : Bool) with
        | true => some (g a)
        | false => (l.map g).find? (fun p => p.id == pid)) = _
    rw [hg a]
    by_cases h : (a.id == pid : Bool)
    · rw [h]
      rfl
    · rw [Bool.eq_false_iff.mpr h]
      exact ih

/-- Effect of one line item on one product's visible stock: the referenced
product is decremented, every other product is untouched. -/
theorem stockOf_applySaleItem (uid saleId : Nat) (db : Db) (it : LineItem) (pid : Nat) :
    stockOf (applySaleItem uid saleId db it) pid =
      if it.id = pid then (stockOf db pid).map (fun s => s - it.quantity)
      else stockOf db pid := by
  have hprod : (applySaleItem uid saleId db it).products
      = db.products.map (fun p =>
          if p.id == it.id then { p with stock_quantity := p.stock_quantity - it.quantity }
          else p) := rfl
  have hg : ∀ p : Product,
      ((fun p : Product =>
        if p.id == it.id then { p with stock_quantity := p.stock_quantity - it.quantity }
        else p) p).id = p.id := by
    intro p
    dsimp only
    split <;> rfl
  unfold stockOf findProduct
  rw [hprod, find?_map_id_eq _ hg pid]
  cases hfind : db.products.find? (fun p => p.id == pid) with
  | none => simp
  | some p =>
    have hpid : p.id = pid := by
      have := List.find?_some hfind
      simpa using this
    by_cases h : it.id = pid
    · subst h
      simp [hpid]
    · have hne : p.id ≠ it.id := by
        rw [hpid]
        exact fun hc => h hc.symm
      simp [h, hne]

/-- Line items whose product id is not `pid` leave `pid`'s stock alone. -/
theorem stockOf_foldl_not_mem (uid saleId : Nat) (items : List LineItem) (db : Db) (pid : Nat)
    (h : pid ∉ items.map (fun x => x.id)) :
    stockOf (items.foldl (applySaleItem uid saleId) db) pid = stockOf db pid := by
  induction items generalizing db with
  | nil => rfl
  | cons it items ih =>
    have h1 : it.id ≠ pid := fun he => h (by rw [List.map_cons, ← he]; exact List.mem_cons_self _ _)
    have h2 : pid ∉ items.map (fun x => x.id) :=
      fun hm => h (by rw [List.map_cons]; exact List.mem_cons_of_mem _ hm)
    rw [List.foldl_cons, ih _ h2, stockOf_applySaleItem, if_neg h1]

/-- With pairwise-distinct product ids among the line items, the loop changes the
stock of `it`'s product by exactly `it.quantity`. -/
theorem stockOf_foldl_mem (uid saleId : Nat) (items : List LineItem) (db : Db) (it : LineItem)
    (hn : (items.map (fun x => x.id)).Nodup) (hmem : it ∈ items) :
    stockOf (items.foldl (applySaleItem uid saleId) db) it.id
      = (stockOf db it.id).map (fun s => s - it.quantity) := by
  induction items generalizing db with
  | nil => cases hmem
  | cons a items ih =>
    simp only [List.map_cons, List.nodup_cons] at hn
    rw [List.foldl_cons]
    rcases List.mem_cons.mp hmem with rfl | hmem'
    · rw [stockOf_foldl_not_mem uid saleId items _ _ hn.1,
        stockOf_applySaleItem, if_pos rfl]
    · have hne : a.id ≠ it.id := by
        intro he
        exact hn.1 (he ▸ List.mem_map_of_mem _ hmem')
      rw [ih _ hn.2 hmem', stockOf_applySaleItem, if_neg hne]

/-- In a table with pairwise-distinct ids, looking a member row up by its id
finds exactly that row. -/
theorem find?_products_eq (l : List Product) (p : Product)
    (hn : (l.map (fun q => q.id)).Nodup) (hp : p ∈ l) :
    l.find? (fun q => q.id == p.id) = some p := by
  induction l with
  | nil => cases hp
  | cons a l ih =>
    simp only [List.map_cons, List.nodup_cons] at hn
    rcases List.mem_cons.mp hp with rfl | hp'
    · exact List.find?_cons_of_pos _ (by simp)
    · have hne : ¬(a.id == p.id : Bool) := by
        simp only [beq_iff_eq]
        intro he
        exact hn.1 (he ▸ List.mem_map_of_mem _ hp')
      rw [List.find?_cons]
      show (match (a.id == p.id : Bool) with
          | true => some a
          | false => l.find? (fun q => q.id == p.id)) = some p
      rw [Bool.eq_false_iff.mpr hne]
      exact ih hn.2 hp'

theorem logAudit_sales (db : Db) (uid : Nat) (a e d : String) :
    (logAudit db uid a e d).sales = db.sales := rfl

theorem logAudit_sale_items (db : Db) (uid : Nat) (a e d : String) :
    (logAudit db uid a e d).sale_items = db.sale_items := rfl

theorem logAudit_movs (db : Db) (uid : Nat) (a e d : String) :
    (logAudit db uid a e d).stock_movements = db.stock_movements := rfl

theorem logAudit_audit_length (db : Db) (uid : Nat) (a e d : String) :
    (logAudit db uid a e d).audit_logs.length = db.audit_logs.length + 1 := by
  simp [logAudit]

theorem stockOf_logAudit (db : Db) (uid : Nat) (a e d : String) (pid : Nat) :
    stockOf (logAudit db uid a e d) pid = stockOf db pid := rfl

/-- C1: a successful sale recording with N line items (distinct products, as
assembled by the point-of-sale cart) creates exactly one `Sale` row, N
`SaleItem` rows, N `StockMovement` rows all of type `OUT`, and one `AuditLog`
row, and decrements each referenced product's `stock_quantity` by exactly that
line item's quantity. -/
theorem sale_recording_rows_and_stock
    (u : AuthUser) (items : List LineItem) (pm : String) (total : Rat) (now : Nat) (db : Db)
    (hprod : (db.products.map (fun p => p.id)).Nodup)
    (hitems : (items.map (fun x => x.id)).Nodup) :
    (recordSale (Cred.valid u) items pm total now db).1 = Resp.okId (db.sales.length + 1) ∧
    (recordSale (Cred.valid u) items pm total now db).2.sales.length = db.sales.length + 1 ∧
    (recordSale (Cred.valid u) items pm total now db).2.sale_items.length
      = db.sale_items.length + items.length ∧
    (recordSale (Cred.valid u) items pm total now db).2.stock_movements.length
      = db.stock_movements.length + items.length ∧
    (∀ m ∈ (recordSale (Cred.valid u) items pm total now db).2.stock_movements,
      m ∈ db.stock_movements ∨ m.type = MovementType.OUT) ∧
    (recordSale (Cred.valid u) items pm total now db).2.audit_logs.length
      = db.audit_logs.length + 1 ∧
    ∀ it ∈ items, ∀ p ∈ db.products, p.id = it.id →
      stockOf (recordSale (Cred.valid u) items pm total now db).2 it.id
        = some (p.stock_quantity - it.quantity) := by
  have hrec : recordSale (Cred.valid u) items pm total now db
      = (Resp.okId (db.sales.length + 1),
        logAudit
          (items.foldl (applySaleItem u.id (db.sales.length + 1))
            { db with sales := db.sales ++
                [{ id := db.sales.length + 1, user_id := u.id, total := total,
                   payment_method := pm, created_at := now }] })
          u.id "SALE" "SALES"
          ("Venda realizada: ID #" ++ toString (db.sales.length + 1)
            ++ ", Total R$ " ++ toString total)) := rfl
  rw [hrec]
  obtain ⟨hu, hs, ha, hil, hml, hip, hmp⟩ :=
    foldl_applySaleItem_fields u.id (db.sales.length + 1) items
      { db with sales := db.sales ++
          [{ id := db.sales.length + 1, user_id := u.id, total := total,
             payment_method := pm, created_at := now }] }
  refine ⟨rfl, ?_, ?_, ?_, ?_, ?_, ?_⟩
  · rw [logAudit_sales, hs]
    simp
  · rw [logAudit_sale_items, hil]
  · rw [logAudit_movs, hml]
  · intro m hm
    rw [logAudit_movs] at hm
    exact foldl_applySaleItem_out u.id (db.sales.length + 1) items
      { db with sales := db.sales ++
          [{ id := db.sales.length + 1, user_id := u.id, total := total,
             payment_method := pm, created_at := now }] } m hm
  · rw [logAudit_audit_length, ha]
  · intro it hit p hp hpe
    rw [stockOf_logAudit, stockOf_foldl_mem _ _ items _ it hitems hit]
    have hfind := find?_products_eq db.products p hprod hp
    rw [hpe] at hfind
    have hst : stockOf
        { db with sales := db.sales ++
            [{ id := db.sales.length + 1, user_id := u.id, total := total,
               payment_method := pm, created_at := now }] } it.id
        = some p.stock_quantity := by
      show (db.products.find? (fun q => q.id == it.id)).map (fun q => q.stock_quantity)
        = some p.stock_quantity
      rw [hfind]
      rfl
    rw [hst]
    rfl

/-- The seed products `001` and `002` of the initial database. -/
def prodW1 : Product :=
  { id := 1, code := "001", name := "Cimento CP-II 50kg", category := "Básico",
    price := 329/10, cost_price := 25, stock_quantity := 100, min_stock := 20, unit := "Saco" }

def prodW2 : Product :=
  { id := 2, code := "002", name := "Argamassa AC-I 20kg", category := "Básico",
    price := 155/10, cost_price := 10, stock_quantity := 50, min_stock := 15, unit := "Saco" }

/-- A freshly seeded store: the admin user and two products, no ledger rows. -/
def dbW : Db :=
  { users := [{ id := 1, username := "admin", password := "admin123",
                name := "Administrador", role := "Dono" }]
    products := [prodW1, prodW2]
    sales := [], sale_items := [], stock_movements := [], audit_logs := [] }

def userW : AuthUser := { id := 1, username := "admin", role := "Dono" }

/-- A two-line cart: 3 bags of cement, 2 bags of mortar. -/
def itemsW : List LineItem :=
  [{ id := 1, quantity := 3, price := 329/10 }, { id := 2, quantity := 2, price := 155/10 }]

theorem sale_recording_rows_and_stock_witness :
    (dbW.products.map (fun p => p.id)).Nodup ∧
    (itemsW.map (fun x => x.id)).Nodup ∧
    (recordSale (Cred.valid userW) itemsW "Dinheiro" (1297/10) 0 dbW).2.sale_items.length
      = dbW.sale_items.length + itemsW.length ∧
    stockOf (recordSale (Cred.valid userW) itemsW "Dinheiro" (1297/10) 0 dbW).2 1
      = some (100 - 3) := by
  have h := sale_recording_rows_and_stock userW itemsW "Dinheiro" (1297/10) 0 dbW
    (by decide) (by decide)
  refine ⟨by decide, by decide, h.2.2.1, ?_⟩
  have h7 := h.2.2.2.2.2.2 { id := 1, quantity := 3, price := 329/10 }
    (List.mem_cons_self _ _) prodW1 (List.mem_cons_self _ _) rfl
  exact h7

/-- C9: the sale recorder enforces no lower bound on stock: a sale whose
quantity exceeds the product's current stock still succeeds, and the product's
stock becomes `stock before − quantity`, a negative value. -/
theorem oversell_drives_stock_negative
    (u : AuthUser) (it : LineItem) (pm : String) (total : Rat) (now : Nat) (db : Db) (p : Product)
    (hprod : (db.products.map (fun q => q.id)).Nodup)
    (hp : p ∈ db.products) (hid : p.id = it.id)
    (hover : p.stock_quantity < it.quantity) :
    (recordSale (Cred.valid u) [it] pm total now db).1 = Resp.okId (db.sales.length + 1) ∧
    stockOf (recordSale (Cred.valid u) [it] pm total now db).2 it.id
      = some (p.stock_quantity - it.quantity) ∧
    p.stock_quantity - it.quantity < 0 := by
  refine ⟨rfl, ?_, by omega⟩
  rw [show (recordSale (Cred.valid u) [it] pm total now db).2
      = logAudit ([it].foldl (applySaleItem u.id (db.sales.length + 1))
          { db with sales := db.sales ++
              [{ id := db.sales.length + 1, user_id := u.id, total := total,
                 payment_method := pm, created_at := now }] })
          u.id "SALE" "SALES"
          ("Venda realizada: ID #" ++ toString (db.sales.length + 1)
            ++ ", Total R$ " ++ toString total) from rfl]
  rw [stockOf_logAudit, stockOf_foldl_mem _ _ [it] _ it (by simp) (List.mem_cons_self _ _)]
  have hfind := find?_products_eq db.products p hprod hp
  rw [hid] at hfind
  have hst : stockOf
      { db with sales := db.sales ++
          [{ id := db.sales.length + 1, user_id := u.id, total := total,
             payment_method := pm, created_at := now }] } it.id
      = some p.stock_quantity := by
    show (db.products.find? (fun q => q.id == it.id)).map (fun q => q.stock_quantity)
      = some p.stock_quantity
    rw [hfind]
    rfl
  rw [hst]
  rfl

/-- A store holding a single product with 8 units on hand. -/
def prodLow : Product :=
  { id := 1, code := "001", name := "Cimento CP-II 50kg", category := "Básico",
    price := 329/10, cost_price := 25, stock_quantity := 8, min_stock := 20, unit := "Saco" }

def dbLow : Db :=
  { users := [{ id := 1, username := "admin", password := "admin123",
                name := "Administrador", role := "Dono" }]
    products := [prodLow]
    sales := [], sale_items := [], stock_movements := [], audit_logs := [] }

theorem oversell_drives_stock_negative_witness :
    (dbLow.products.map (fun q => q.id)).Nodup ∧
    (8 : Int) < 10 ∧
    (recordSale (Cred.valid userW) [{ id := 1, quantity := 10, price := 329/10 }]
        "Pix" 329 0 dbLow).1 = Resp.okId 1 ∧
    stockOf (recordSale (Cred.valid userW) [{ id := 1, quantity := 10, price := 329/10 }]
        "Pix" 329 0 dbLow).2 1 = some (-2) := by
  have h := oversell_drives_stock_negative userW { id := 1, quantity := 10, price := 329/10 }
    "Pix" 329 0 dbLow prodLow (by decide) (List.mem_cons_self _ _) rfl (by decide)
  exact ⟨by decide, by decide, h.1, h.2.1⟩

/-- An UPDATE whose id matches no row leaves the table unchanged. -/
theorem map_update_no_match (pid : Nat) (f : ProductFields) (l : List Product)
    (h : ∀ p ∈ l, p.id ≠ pid) :
    l.map (fun p =>
      if p.id == pid then
        { p with code := f.code, name := f.name, category := f.category,
                 price := f.price, cost_price := f.cost_price,
                 min_stock := f.min_stock, unit := f.unit }
      else p) = l := by
  induction l with
  | nil => rfl
  | cons a l ih =>
    have ha : (a.id == pid) = false := by simpa using h a (List.mem_cons_self _ _)
    rw [List.map_cons, ih (fun p hp => h p (List.mem_cons_of_mem _ hp))]
    simp [ha]

/-- C10: `PUT /api/products/:id` with an id matching no product still answers
`{success:true}` and appends an `UPDATE PRODUCT` audit row; the `products`
table (and everything else) is unchanged. -/
theorem put_product_missing_id
    (u : AuthUser) (pid : Nat) (f : ProductFields) (db : Db)
    (hrole : u.role ≠ "Vendedor")
    (hmiss : ∀ p ∈ db.products, p.id ≠ pid) :
    putProduct (Cred.valid u) pid f db
      = (Resp.okSuccess,
         { db with audit_logs := db.audit_logs ++
             [{ id := db.audit_logs.length + 1, user_id := u.id, action := "UPDATE",
                entity := "PRODUCT",
                details := "Produto atualizado: " ++ f.name ++ " (" ++ f.code ++ ")" }] }) := by
  have hv : (u.role == "Vendedor") = false := by simpa using hrole
  have hany : (db.products.any (fun p => p.id == pid)) = false := by
    rw [List.any_eq_false]
    intro p hp
    simpa using hmiss p hp
  have hmap := map_update_no_match pid f db.products hmiss
  simp only [putProduct, authGate, hv, hany, Bool.false_and, Bool.false_eq_true,
    if_false, hmap, logAudit]

def fieldsW : ProductFields :=
  { code := "010", name := "Telha", category := "Cobertura",
    price := 12, cost_price := 8, min_stock := 4, unit := "Unidade" }

theorem put_product_missing_id_witness :
    ("Gerente" : String) ≠ "Vendedor" ∧
    (∀ p ∈ dbW.products, p.id ≠ 99) ∧
    putProduct (Cred.valid { id := 1, username := "gerente", role := "Gerente" }) 99 fieldsW dbW
      = (Resp.okSuccess,
         { dbW with audit_logs := dbW.audit_logs ++
             [{ id := dbW.audit_logs.length + 1, user_id := 1, action := "UPDATE",
                entity := "PRODUCT",
                details := "Produto atualizado: " ++ fieldsW.name
                  ++ " (" ++ fieldsW.code ++ ")" }] }) :=
  ⟨by decide, by decide,
    put_product_missing_id { id := 1, username := "gerente", role := "Gerente" } 99 fieldsW dbW
      (by decide) (by decide)⟩

/-- C2, code-bug exhibit: in the hosted variant, a failing item write (here the
`sale_items` insert, rejected by the product foreign key because product 99 does
not exist) neither aborts the operation nor rolls back the sale header: the
handler still answers `{id: 1}`, the `Sale` row from the attempt remains
observable, and no `SaleItem` or `StockMovement` row was stored. -/
theorem hosted_sale_partial_failure :
    (recordSaleHosted (Cred.valid userW) [{ id := 99, quantity := 1, price := 10 }]
        "Pix" 10 0 dbLow).1 = Resp.okId 1 ∧
    (recordSaleHosted (Cred.valid userW) [{ id := 99, quantity := 1, price := 10 }]
        "Pix" 10 0 dbLow).2.sales.length = dbLow.sales.length + 1 ∧
    (recordSaleHosted (Cred.valid userW) [{ id := 99, quantity := 1, price := 10 }]
        "Pix" 10 0 dbLow).2.sale_items = [] ∧
    (recordSaleHosted (Cred.valid userW) [{ id := 99, quantity := 1, price := 10 }]
        "Pix" 10 0 dbLow).2.stock_movements = [] := by
  refine ⟨rfl, rfl, rfl, rfl⟩

/-- A product at stock 2, below its minimum of 3. -/
def prodCrit : Product :=
  { id := 1, code := "004", name := "Fio Flexível 2.5mm 100m", category := "Elétrica",
    price := 245, cost_price := 180, stock_quantity := 2, min_stock := 3, unit := "Rolo" }

/-- A store whose single product is at critical stock. -/
def dbCrit : Db :=
  { users := [], products := [prodCrit]
    sales := [], sale_items := [], stock_movements := [], audit_logs := [] }

/-- C4, code-bug exhibit: the embedded variant's `criticalStock` equals the
count of products with `stock_quantity ≤ min_stock` for every store and every
(ignored) date range, but the hosted variant reports 0 on a store with one
critical product, because its filter compares `stock_quantity` with the string
literal `min_stock`. -/
theorem critical_stock_hosted_wrong :
    (∀ (db : Db) (r1 r2 : Option (Nat × Nat)),
      criticalStock r1 db = criticalStock r2 db ∧
      criticalStock r1 db
        = (db.products.filter (fun p => decide (p.stock_quantity ≤ p.min_stock))).length) ∧
    criticalStockHosted dbCrit = 0 ∧
    (dbCrit.products.filter (fun p => decide (p.stock_quantity ≤ p.min_stock))).length = 1 :=
  ⟨fun _ _ _ => ⟨rfl, rfl⟩, by decide, by decide⟩

/-- One step of a thread whose remaining actions are all atomic decrements
preserves `stock - pending` and the all-atomic shape. -/
theorem stepThread_atomic (s : Int) (t : ThreadSt)
    (h : ∀ a ∈ t.acts, ∃ q, a = Act.atomicDec q) :
    (stepThread s t).1 - pendingDec (stepThread s t).2.acts = s - pendingDec t.acts ∧
    ∀ a ∈ (stepThread s t).2.acts, ∃ q, a = Act.atomicDec q := by
  rcases t with ⟨reg, acts⟩
  cases acts with
  | nil => exact ⟨rfl, h⟩
  | cons a rest =>
    obtain ⟨q, rfl⟩ := h a (List.mem_cons_self _ _)
    refine ⟨?_, fun x hx => h x (List.mem_cons_of_mem _ hx)⟩
    show (s - q) - pendingDec rest = s - (q + pendingDec rest)
    omega

/-- Interleaving invariant for atomic decrements: under every schedule,
`stock - (pending of both threads)` never changes, and the programs stay
all-atomic. -/
theorem execSched_atomic_inv (sched : List Bool) (s : Int) (t1 t2 : ThreadSt)
    (h1 : ∀ a ∈ t1.acts, ∃ q, a = Act.atomicDec q)
    (h2 : ∀ a ∈ t2.acts, ∃ q, a = Act.atomicDec q) :
    (execSched sched s t1 t2).1
        - (pendingDec (execSched sched s t1 t2).2.1.acts
          + pendingDec (execSched sched s t1 t2).2.2.acts)
      = s - (pendingDec t1.acts + pendingDec t2.acts) ∧
    (∀ a ∈ (execSched sched s t1 t2).2.1.acts, ∃ q, a = Act.atomicDec q) ∧
    (∀ a ∈ (execSched sched s t1 t2).2.2.acts, ∃ q, a = Act.atomicDec q) := by
  induction sched generalizing s t1 t2 with
  | nil => exact ⟨rfl, h1, h2⟩
  | cons b bs ih =>
    cases b
    · have hstep := stepThread_atomic s t1 h1
      have hrec := ih (stepThread s t1).1 (stepThread s t1).2 t2 hstep.2 h2
      have hE : execSched (false :: bs) s t1 t2
          = execSched bs (stepThread s t1).1 (stepThread s t1).2 t2 := rfl
      rw [hE]
      refine ⟨?_, hrec.2.1, hrec.2.2⟩
      have hA := hrec.1
      have hB := hstep.1
      omega
    · have hstep := stepThread_atomic s t2 h2
      have hrec := ih (stepThread s t2).1 t1 (stepThread s t2).2 h1 hstep.2
      have hE : execSched (true :: bs) s t1 t2
          = execSched bs (stepThread s t2).1 t1 (stepThread s t2).2 := rfl
      rw [hE]
      refine ⟨?_, hrec.2.1, hrec.2.2⟩
      have hA := hrec.1
      have hB := hstep.1
      omega

/-- C5, code-bug exhibit: with the embedded variant's atomic decrement, every
complete interleaving of two concurrent stock writes ends at
`initial - q1 - q2`; the hosted variant's read-modify-write pair admits the
schedule read₁ read₂ write₁ write₂, which on stock 8 with two sales of 5 ends
at 3 - one update is lost - instead of the required 8 - 5 - 5 = -2. -/
theorem stock_write_lost_update :
    (∀ (sched : List Bool) (s q1 q2 : Int),
      (execSched sched s ⟨0, atomicDecProg q1⟩ ⟨0, atomicDecProg q2⟩).2.1.acts = [] →
      (execSched sched s ⟨0, atomicDecProg q1⟩ ⟨0, atomicDecProg q2⟩).2.2.acts = [] →
      (execSched sched s ⟨0, atomicDecProg q1⟩ ⟨0, atomicDecProg q2⟩).1 = s - q1 - q2) ∧
    ((execSched [false, true, false, true] 8 ⟨0, rmwProg 5⟩ ⟨0, rmwProg 5⟩).2.1.acts = [] ∧
     (execSched [false, true, false, true] 8 ⟨0, rmwProg 5⟩ ⟨0, rmwProg 5⟩).2.2.acts = [] ∧
     (execSched [false, true, false, true] 8 ⟨0, rmwProg 5⟩ ⟨0, rmwProg 5⟩).1 = 3 ∧
     (3 : Int) ≠ 8 - 5 - 5) := by
  constructor
  · intro sched s q1 q2 hf1 hf2
    have h := execSched_atomic_inv sched s ⟨0, atomicDecProg q1⟩ ⟨0, atomicDecProg q2⟩
      (fun a ha => ⟨q1, List.mem_singleton.mp ha⟩)
      (fun a ha => ⟨q2, List.mem_singleton.mp ha⟩)
    have h1 := h.1
    rw [hf1, hf2] at h1
    have hp1 : pendingDec (atomicDecProg q1) = q1 := by
      show q1 + 0 = q1
      omega
    have hp2 : pendingDec (atomicDecProg q2) = q2 := by
      show q2 + 0 = q2
      omega
    rw [hp1, hp2] at h1
    have hnil : pendingDec ([] : List Act) = 0 := rfl
    rw [hnil] at h1
    omega
  · exact ⟨rfl, rfl, by decide, by decide⟩

theorem stock_write_lost_update_witness :
    (execSched [false, true] 8 ⟨0, atomicDecProg 5⟩ ⟨0, atomicDecProg 5⟩).2.1.acts = [] ∧
    (execSched [false, true] 8 ⟨0, atomicDecProg 5⟩ ⟨0, atomicDecProg 5⟩).2.2.acts = [] ∧
    (execSched [false, true] 8 ⟨0, atomicDecProg 5⟩ ⟨0, atomicDecProg 5⟩).1 = 8 - 5 - 5 :=
  ⟨by decide, by decide, stock_write_lost_update.1 [false, true] 8 5 5 (by decide) (by decide)⟩

theorem foldl_add_map (f : SaleItem → Rat) (l : List SaleItem) (c : Rat) :
    l.foldl (fun a si => a + f si) c = c + (l.map f).sum := by
  induction l generalizing c with
  | nil => simp
  | cons a l ih =>
    rw [List.foldl_cons, ih, List.map_cons, List.sum_cons, add_assoc]

/-- The net-profit aggregate reads only `sale_items` and `sales`. -/
theorem netProfit_congr (inR : Nat → Bool) (db db' : Db)
    (h1 : db'.sale_items = db.sale_items) (h2 : db'.sales = db.sales) :
    netProfit inR db' = netProfit inR db := by
  unfold netProfit
  rw [h1, h2]

/-- `PUT /api/products/:id` never touches `sale_items` or `sales`. -/
theorem putProduct_tables (c : Cred) (pid : Nat) (f : ProductFields) (db : Db) :
    (putProduct c pid f db).2.sale_items = db.sale_items ∧
    (putProduct c pid f db).2.sales = db.sales := by
  cases c with
  | missing => exact ⟨rfl, rfl⟩
  | invalid => exact ⟨rfl, rfl⟩
  | valid u =>
    simp only [putProduct, authGate]
    split
    · exact ⟨rfl, rfl⟩
    · split
      · exact ⟨rfl, rfl⟩
      · exact ⟨rfl, rfl⟩

/-- `POST /api/products` never touches `sale_items` or `sales`. -/
theorem postProducts_tables (c : Cred) (f : ProductFields) (db : Db) :
    (postProducts c f db).2.sale_items = db.sale_items ∧
    (postProducts c f db).2.sales = db.sales := by
  cases c with
  | missing => exact ⟨rfl, rfl⟩
  | invalid => exact ⟨rfl, rfl⟩
  | valid u =>
    simp only [postProducts, authGate]
    split
    · exact ⟨rfl, rfl⟩
    · split
      · exact ⟨rfl, rfl⟩
      · exact ⟨rfl, rfl⟩

/-- C3: the dashboard net-profit figure is exactly the spec's
`Σ quantity × (price − cost_price)` over the in-range sale items, computed from
the `SaleItem` snapshot columns, and editing a product's `price`/`cost_price`
afterwards (or creating products) leaves the figure unchanged. -/
theorem net_profit_snapshot (inR : Nat → Bool) (db : Db) :
    netProfit inR db = netProfitSpec inR db ∧
    (∀ (c : Cred) (pid : Nat) (f : ProductFields),
      netProfit inR (putProduct c pid f db).2 = netProfit inR db) ∧
    (∀ (c : Cred) (f : ProductFields),
      netProfit inR (postProducts c f db).2 = netProfit inR db) := by
  refine ⟨?_, ?_, ?_⟩
  · unfold netProfit netProfitSpec
    rw [foldl_add_map, zero_add]
  · intro c pid f
    exact netProfit_congr inR db _ (putProduct_tables c pid f db).1
      (putProduct_tables c pid f db).2
  · intro c f
    exact netProfit_congr inR db _ (postProducts_tables c f db).1
      (postProducts_tables c f db).2

/-- C6 counterexample: the rejection of an invalid credential is not
401-equivalent.  `authenticateToken` answers a token rejected by `jwt.verify`
with status 403 (`Token inválido`) - the same status an authenticated
`Vendedor` gets from the insufficient-role guard - so status alone does not
separate invalid-credential from insufficient-role, and the invalid-credential
status differs from 401. -/
theorem invalid_credential_status_not_401 :
    (postProducts Cred.invalid fieldsW dbW).1 = Resp.err 403 "Token inválido" ∧
    (postProducts (Cred.valid { id := 2, username := "ana", role := "Vendedor" }) fieldsW dbW).1
      = Resp.err 403 "Sem permissão" ∧
    (403 : Nat) ≠ 401 :=
  ⟨rfl, rfl, by decide⟩

/-- C6 amended: role `Vendedor` is rejected `403 Sem permissão` on product
create/update; any role other than `Dono` is rejected with 403 on user listing,
user creation and audit reading; a missing credential is rejected `401 Acesso
negado` and an invalid credential `403 Token inválido` - so credential failures
and role failures are distinguished by the (status, message) pair, though the
invalid-credential status is 403, not 401. -/
theorem role_guards
    (u : AuthUser) (f : ProductFields) (pid : Nat)
    (username password name role : String) (db : Db) :
    (u.role = "Vendedor" →
      postProducts (Cred.valid u) f db = (Resp.err 403 "Sem permissão", db) ∧
      putProduct (Cred.valid u) pid f db = (Resp.err 403 "Sem permissão", db)) ∧
    (u.role ≠ "Dono" →
      getUsers (Cred.valid u) db = (Resp.err 403 "Acesso negado", db) ∧
      postUsers (Cred.valid u) username password name role db
        = (Resp.err 403 "Acesso negado", db) ∧
      getAudit (Cred.valid u) db = (Resp.err 403 "Acesso restrito ao proprietário", db)) ∧
    postProducts Cred.missing f db = (Resp.err 401 "Acesso negado", db) ∧
    postProducts Cred.invalid f db = (Resp.err 403 "Token inválido", db) := by
  refine ⟨?_, ?_, rfl, rfl⟩
  · intro h
    have hv : (u.role == "Vendedor") = true := by simp [h]
    constructor
    · simp [postProducts, authGate, hv]
    · simp [putProduct, authGate, hv]
  · intro h
    have hd : (u.role == "Dono") = false := by simpa using h
    refine ⟨?_, ?_, ?_⟩
    · simp [getUsers, authGate, bne, hd]
    · simp [postUsers, authGate, bne, hd]
    · simp [getAudit, authGate, bne, hd]

theorem role_guards_witness :
    postProducts (Cred.valid { id := 2, username := "ana", role := "Vendedor" }) fieldsW dbW
      = (Resp.err 403 "Sem permissão", dbW) ∧
    putProduct (Cred.valid { id := 2, username := "ana", role := "Vendedor" }) 1 fieldsW dbW
      = (Resp.err 403 "Sem permissão", dbW) ∧
    getUsers (Cred.valid { id := 2, username := "ana", role := "Vendedor" }) dbW
      = (Resp.err 403 "Acesso negado", dbW) ∧
    getAudit (Cred.valid { id := 2, username := "ana", role := "Vendedor" }) dbW
      = (Resp.err 403 "Acesso restrito ao proprietário", dbW) := by
  have h := role_guards { id := 2, username := "ana", role := "Vendedor" } fieldsW 1
    "x" "y" "z" "Vendedor" dbW
  have h1 := h.1 rfl
  have h2 := h.2.1 (by decide)
  exact ⟨h1.1, h1.2, h2.1, h2.2.2⟩

theorem mem_insertByRevenue (x z : ProductStat) (l : List ProductStat)
    (h : z ∈ insertByRevenue x l) : z = x ∨ z ∈ l := by
  induction l with
  | nil => simpa [insertByRevenue] using h
  | cons y ys ih =>
    by_cases hc : y.total_revenue < x.total_revenue
    · rw [insertByRevenue, if_pos hc] at h
      rcases List.mem_cons.mp h with rfl | h'
      · exact Or.inl rfl
      · exact Or.inr h'
    · rw [insertByRevenue, if_neg hc] at h
      rcases List.mem_cons.mp h with rfl | h'
      · exact Or.inr (List.mem_cons_self _ _)
      · rcases ih h' with h'' | h''
        · exact Or.inl h''
        · exact Or.inr (List.mem_cons_of_mem _ h'')

theorem sorted_insertByRevenue (x : ProductStat) (l : List ProductStat)
    (h : l.Pairwise (fun a b => b.total_revenue ≤ a.total_revenue)) :
    (insertByRevenue x l).Pairwise (fun a b => b.total_revenue ≤ a.total_revenue) := by
  induction l with
  | nil => simp [insertByRevenue]
  | cons y ys ih =>
    rcases List.pairwise_cons.mp h with ⟨hy, hys⟩
    by_cases hc : y.total_revenue < x.total_revenue
    · rw [insertByRevenue, if_pos hc]
      refine List.pairwise_cons.mpr ⟨?_, List.pairwise_cons.mpr ⟨hy, hys⟩⟩
      intro z hz
      rcases List.mem_cons.mp hz with rfl | hz'
      · exact le_of_lt hc
      · exact le_trans (hy z hz') (le_of_lt hc)
    · rw [insertByRevenue, if_neg hc]
      refine List.pairwise_cons.mpr ⟨?_, ih hys⟩
      intro z hz
      rcases mem_insertByRevenue x z ys hz with rfl | hz'
      · exact not_lt.mp hc
      · exact hy z hz'

theorem sorted_sortByRevenueDesc (l : List ProductStat) :
    (sortByRevenueDesc l).Pairwise (fun a b => b.total_revenue ≤ a.total_revenue) := by
  induction l with
  | nil => exact List.Pairwise.nil
  | cons x xs ih => exact sorted_insertByRevenue x _ ih

theorem length_insertByRevenue (x : ProductStat) (l : List ProductStat) :
    (insertByRevenue x l).length = l.length + 1 := by
  induction l with
  | nil => rfl
  | cons y ys ih =>
    by_cases hc : y.total_revenue < x.total_revenue
    · rw [insertByRevenue, if_pos hc]
      rfl
    · rw [insertByRevenue, if_neg hc]
      simp [ih]

theorem length_sortByRevenueDesc (l : List ProductStat) :
    (sortByRevenueDesc l).length = l.length := by
  induction l with
  | nil => rfl
  | cons x xs ih =>
    show (insertByRevenue x (sortByRevenueDesc xs)).length = (x :: xs).length
    rw [length_insertByRevenue, ih]
    rfl

theorem mem_sortByRevenueDesc (z : ProductStat) (l : List ProductStat)
    (h : z ∈ sortByRevenueDesc l) : z ∈ l := by
  induction l with
  | nil => exact absurd h (by simp [sortByRevenueDesc])
  | cons x xs ih =>
    rcases mem_insertByRevenue x z _ h with rfl | h'
    · exact List.mem_cons_self _ _
    · exact List.mem_cons_of_mem _ (ih h')

/-- One cement product; its only sale (2 units at price 10) happened at t = 100,
outside the report range that will end at t = 50. -/
def prodRange : Product :=
  { id := 1, code := "001", name := "Cimento CP-II 50kg", category := "Básico",
    price := 10, cost_price := 5, stock_quantity := 10, min_stock := 1, unit := "Saco" }

def saleRange : Sale :=
  { id := 1, user_id := 1, total := 20, payment_method := "Pix", created_at := 100 }

def itemRange : SaleItem :=
  { id := 1, sale_id := 1, product_id := 1, quantity := 2, price := 10, cost_price := some 5 }

def dbRange : Db :=
  { users := [], products := [prodRange], sales := [saleRange]
    sale_items := [itemRange], stock_movements := [], audit_logs := [] }

/-- Two distinct products that share the display name `Telha`. -/
def prodTelha1 : Product :=
  { id := 1, code := "T1", name := "Telha", category := "Cobertura",
    price := 10, cost_price := 5, stock_quantity := 10, min_stock := 1, unit := "Unidade" }

def prodTelha2 : Product :=
  { id := 2, code := "T2", name := "Telha", category := "Cobertura",
    price := 20, cost_price := 10, stock_quantity := 10, min_stock := 1, unit := "Unidade" }

def saleTelha : Sale :=
  { id := 1, user_id := 1, total := 30, payment_method := "Pix", created_at := 0 }

def dbNames : Db :=
  { users := [], products := [prodTelha1, prodTelha2], sales := [saleTelha]
    sale_items := [
      { id := 1, sale_id := 1, product_id := 1, quantity := 1, price := 10, cost_price := some 5 },
      { id := 2, sale_id := 1, product_id := 2, quantity := 1, price := 20, cost_price := some 10 }]
    stock_movements := [], audit_logs := [] }

/-- C7, code-bug exhibit: in the SQL paths (and the hybrid in-memory path) the
top-products list is capped at 10, sorted by descending `total_revenue`, and
each entry aggregates exactly the in-range sale items of one product id.  The
hosted-only variant keeps the cap and the ordering, but its aggregation ignores
the requested range - a store whose only sale lies outside the range still
produces a revenue entry - and keys its groups by product name, merging two
distinct products that share a name. -/
theorem top_products_range_ignored_hosted :
    (∀ (inR : Nat → Bool) (db : Db),
      (topProducts inR db).length ≤ 10 ∧
      (topProducts inR db).Pairwise (fun a b => b.total_revenue ≤ a.total_revenue) ∧
      ∀ st ∈ topProducts inR db, ∃ pid, st = statFor db (itemsInRange inR db) pid) ∧
    (∀ (r : Option (Nat × Nat)) (db : Db),
      (topProductsHosted r db).length ≤ 10 ∧
      (topProductsHosted r db).Pairwise (fun a b => b.total_revenue ≤ a.total_revenue)) ∧
    (topProducts (fun t => decide (t < 50)) dbRange = [] ∧
     (topProductsHosted (some (0, 50)) dbRange).map (fun st => (st.name, st.total_qty))
       = [("Cimento CP-II 50kg", 2)]) ∧
    ((topProducts (fun _ => true) dbNames).length = 2 ∧
     (topProductsHosted none dbNames).length = 1) := by
  refine ⟨?_, ?_, ⟨by decide, by decide⟩, ⟨?_, ?_⟩⟩
  · intro inR db
    refine ⟨?_, ?_, ?_⟩
    · rw [topProducts, List.length_take]
      exact min_le_left _ _
    · exact List.Pairwise.sublist (List.take_sublist _ _) (sorted_sortByRevenueDesc _)
    · intro st hst
      have h1 : st ∈ sortByRevenueDesc
          ((collectPids (itemsInRange inR db)).map (statFor db (itemsInRange inR db))) :=
        (List.take_sublist _ _).subset hst
      have h2 := mem_sortByRevenueDesc _ _ h1
      rcases List.mem_map.mp h2 with ⟨pid, _, heq⟩
      exact ⟨pid, heq.symm⟩
  · intro r db
    refine ⟨?_, ?_⟩
    · rw [topProductsHosted, List.length_take]
      exact min_le_left _ _
    · exact List.Pairwise.sublist (List.take_sublist _ _) (sorted_sortByRevenueDesc _)
  · rw [topProducts, List.length_take, length_sortByRevenueDesc, List.length_map]
    decide
  · rw [topProductsHosted, List.length_take, length_sortByRevenueDesc, List.length_map]
    decide

theorem ledger_refl (db : Db) :
    db.sales <+: db.sales ∧ db.sale_items <+: db.sale_items ∧
    db.stock_movements <+: db.stock_movements ∧ db.audit_logs <+: db.audit_logs :=
  ⟨List.prefix_rfl, List.prefix_rfl, List.prefix_rfl, List.prefix_rfl⟩

theorem logAudit_audit (db : Db) (uid : Nat) (a e d : String) :
    (logAudit db uid a e d).audit_logs = db.audit_logs ++
      [{ id := db.audit_logs.length + 1, user_id := uid,
         action := a, entity := e, details := d }] := rfl

theorem hostedInsertItem_fields (saleId : Nat) (db : Db) (it : LineItem) :
    (hostedInsertItem saleId db it).users = db.users ∧
    (hostedInsertItem saleId db it).products = db.products ∧
    (hostedInsertItem saleId db it).sales = db.sales ∧
    (hostedInsertItem saleId db it).audit_logs = db.audit_logs ∧
    db.sale_items <+: (hostedInsertItem saleId db it).sale_items ∧
    (hostedInsertItem saleId db it).stock_movements = db.stock_movements := by
  unfold hostedInsertItem
  split
  · exact ⟨rfl, rfl, rfl, rfl, ⟨_, rfl⟩, rfl⟩
  · exact ⟨rfl, rfl, rfl, rfl, List.prefix_rfl, rfl⟩

theorem hostedUpdateStock_fields (db : Db) (it : LineItem) :
    (hostedUpdateStock db it).users = db.users ∧
    (hostedUpdateStock db it).sales = db.sales ∧
    (hostedUpdateStock db it).audit_logs = db.audit_logs ∧
    (hostedUpdateStock db it).sale_items = db.sale_items ∧
    (hostedUpdateStock db it).stock_movements = db.stock_movements := by
  unfold hostedUpdateStock
  cases hfp : findProduct db it.id with
  | none => exact ⟨rfl, rfl, rfl, rfl, rfl⟩
  | some p => exact ⟨rfl, rfl, rfl, rfl, rfl⟩

theorem hostedInsertMovement_fields (uid saleId : Nat) (db : Db) (it : LineItem) :
    (hostedInsertMovement uid saleId db it).users = db.users ∧
    (hostedInsertMovement uid saleId db it).products = db.products ∧
    (hostedInsertMovement uid saleId db it).sales = db.sales ∧
    (hostedInsertMovement uid saleId db it).audit_logs = db.audit_logs ∧
    (hostedInsertMovement uid saleId db it).sale_items = db.sale_items ∧
    db.stock_movements <+: (hostedInsertMovement uid saleId db it).stock_movements := by
  unfold hostedInsertMovement
  split
  · exact ⟨rfl, rfl, rfl, rfl, rfl, ⟨_, rfl⟩⟩
  · exact ⟨rfl, rfl, rfl, rfl, rfl, List.prefix_rfl⟩

theorem applySaleItemHosted_fields (uid saleId : Nat) (db : Db) (it : LineItem) :
    (applySaleItemHosted uid saleId db it).users = db.users ∧
    (applySaleItemHosted uid saleId db it).sales = db.sales ∧
    (applySaleItemHosted uid saleId db it).audit_logs = db.audit_logs ∧
    db.sale_items <+: (applySaleItemHosted uid saleId db it).sale_items ∧
    db.stock_movements <+: (applySaleItemHosted uid saleId db it).stock_movements := by
  obtain ⟨a1, a2, a3, a4, a5, a6⟩ := hostedInsertItem_fields saleId db it
  obtain ⟨b1, b2, b3, b4, b5⟩ := hostedUpdateStock_fields (hostedInsertItem saleId db it) it
  obtain ⟨c1, c2, c3, c4, c5, c6⟩ := hostedInsertMovement_fields uid saleId
    (hostedUpdateStock (hostedInsertItem saleId db it) it) it
  unfold applySaleItemHosted
  refine ⟨?_, ?_, ?_, ?_, ?_⟩
  · rw [c1, b1, a1]
  · rw [c3, b2, a3]
  · rw [c4, b3, a4]
  · rw [c5, b4]
    exact a5
  · rw [b5, a6] at c6
    exact c6

theorem foldl_hosted_fields (uid saleId : Nat) (items : List LineItem) (db : Db) :
    (items.foldl (applySaleItemHosted uid saleId) db).users = db.users ∧
    (items.foldl (applySaleItemHosted uid saleId) db).sales = db.sales ∧
    (items.foldl (applySaleItemHosted uid saleId) db).audit_logs = db.audit_logs ∧
    db.sale_items <+: (items.foldl (applySaleItemHosted uid saleId) db).sale_items ∧
    db.stock_movements <+: (items.foldl (applySaleItemHosted uid saleId) db).stock_movements := by
  induction items generalizing db with
  | nil => exact ⟨rfl, rfl, rfl, List.prefix_rfl, List.prefix_rfl⟩
  | cons it items ih =>
    obtain ⟨h1, h2, h3, h4, h5⟩ := ih (applySaleItemHosted uid saleId db it)
    obtain ⟨g1, g2, g3, g4, g5⟩ := applySaleItemHosted_fields uid saleId db it
    refine ⟨?_, ?_, ?_, ?_, ?_⟩
    · rw [List.foldl_cons, h1, g1]
    · rw [List.foldl_cons, h2, g2]
    · rw [List.foldl_cons, h3, g3]
    · rw [List.foldl_cons]
      exact g4.trans h4
    · rw [List.foldl_cons]
      exact g5.trans h5

theorem ledger_login (username password : String) (db : Db) :
    db.sales <+: (login username password db).2.sales ∧
    db.sale_items <+: (login username password db).2.sale_items ∧
    db.stock_movements <+: (login username password db).2.stock_movements ∧
    db.audit_logs <+: (login username password db).2.audit_logs := by
  unfold login
  cases hf : db.users.find? (fun w => w.username == username) with
  | none => exact ledger_refl db
  | some w =>
    dsimp only
    by_cases hpw : (hashPassword password == w.password) = true
    · rw [if_pos hpw]
      exact ⟨List.prefix_rfl, List.prefix_rfl, List.prefix_rfl, ⟨_, rfl⟩⟩
    · rw [if_neg hpw]
      exact ledger_refl db

theorem ledger_postProducts (c : Cred) (f : ProductFields) (db : Db) :
    db.sales <+: (postProducts c f db).2.sales ∧
    db.sale_items <+: (postProducts c f db).2.sale_items ∧
    db.stock_movements <+: (postProducts c f db).2.stock_movements ∧
    db.audit_logs <+: (postProducts c f db).2.audit_logs := by
  cases c with
  | missing => exact ledger_refl db
  | invalid => exact ledger_refl db
  | valid u =>
    simp only [postProducts, authGate]
    split
    · exact ledger_refl db
    · split
      · exact ledger_refl db
      · exact ⟨List.prefix_rfl, List.prefix_rfl, List.prefix_rfl, ⟨_, rfl⟩⟩

theorem ledger_putProduct (c : Cred) (pid : Nat) (f : ProductFields) (db : Db) :
    db.sales <+: (putProduct c pid f db).2.sales ∧
    db.sale_items <+: (putProduct c pid f db).2.sale_items ∧
    db.stock_movements <+: (putProduct c pid f db).2.stock_movements ∧
    db.audit_logs <+: (putProduct c pid f db).2.audit_logs := by
  cases c with
  | missing => exact ledger_refl db
  | invalid => exact ledger_refl db
  | valid u =>
    simp only [putProduct, authGate]
    split
    · exact ledger_refl db
    · split
      · exact ledger_refl db
      · exact ⟨List.prefix_rfl, List.prefix_rfl, List.prefix_rfl, ⟨_, rfl⟩⟩

theorem ledger_postUsers (c : Cred) (username password name role : String) (db : Db) :
    db.sales <+: (postUsers c username password name role db).2.sales ∧
    db.sale_items <+: (postUsers c username password name role db).2.sale_items ∧
    db.stock_movements <+: (postUsers c username password name role db).2.stock_movements ∧
    db.audit_logs <+: (postUsers c username password name role db).2.audit_logs := by
  cases c with
  | missing => exact ledger_refl db
  | invalid => exact ledger_refl db
  | valid u =>
    simp only [postUsers, authGate]
    split
    · exact ledger_refl db
    · split
      · exact ledger_refl db
      · exact ⟨List.prefix_rfl, List.prefix_rfl, List.prefix_rfl, ⟨_, rfl⟩⟩

theorem ledger_recordSale (c : Cred) (items : List LineItem) (pm : String) (total : Rat)
    (now : Nat) (db : Db) :
    db.sales <+: (recordSale c items pm total now db).2.sales ∧
    db.sale_items <+: (recordSale c items pm total now db).2.sale_items ∧
    db.stock_movements <+: (recordSale c items pm total now db).2.stock_movements ∧
    db.audit_logs <+: (recordSale c items pm total now db).2.audit_logs := by
  cases c with
  | missing => exact ledger_refl db
  | invalid => exact ledger_refl db
  | valid u =>
    have hrec : (recordSale (Cred.valid u) items pm total now db).2
        = logAudit
            (items.foldl (applySaleItem u.id (db.sales.length + 1))
              { db with sales := db.sales ++
                  [{ id := db.sales.length + 1, user_id := u.id, total := total,
                     payment_method := pm, created_at := now }] })
            u.id "SALE" "SALES"
            ("Venda realizada: ID #" ++ toString (db.sales.length + 1)
              ++ ", Total R$ " ++ toString total) := rfl
    obtain ⟨hu, hs, ha, hil, hml, hip, hmp⟩ :=
      foldl_applySaleItem_fields u.id (db.sales.length + 1) items
        { db with sales := db.sales ++
            [{ id := db.sales.length + 1, user_id := u.id, total := total,
               payment_method := pm, created_at := now }] }
    rw [hrec]
    refine ⟨?_, ?_, ?_, ?_⟩
    · rw [logAudit_sales, hs]
      exact ⟨_, rfl⟩
    · rw [logAudit_sale_items]
      exact hip
    · rw [logAudit_movs]
      exact hmp
    · rw [logAudit_audit, ha]
      exact ⟨_, rfl⟩

theorem ledger_recordSaleHosted (c : Cred) (items : List LineItem) (pm : String) (total : Rat)
    (now : Nat) (db : Db) :
    db.sales <+: (recordSaleHosted c items pm total now db).2.sales ∧
    db.sale_items <+: (recordSaleHosted c items pm total now db).2.sale_items ∧
    db.stock_movements <+: (recordSaleHosted c items pm total now db).2.stock_movements ∧
    db.audit_logs <+: (recordSaleHosted c items pm total now db).2.audit_logs := by
  cases c with
  | missing => exact ledger_refl db
  | invalid => exact ledger_refl db
  | valid u =>
    simp only [recordSaleHosted, authGate]
    split
    · obtain ⟨h1, h2, h3, h4, h5⟩ :=
        foldl_hosted_fields u.id (db.sales.length + 1) items
          { db with sales := db.sales ++
              [{ id := db.sales.length + 1, user_id := u.id, total := total,
                 payment_method := pm, created_at := now }] }
      refine ⟨?_, ?_, ?_, ?_⟩
      · rw [logAudit_sales, h2]
        exact ⟨_, rfl⟩
      · rw [logAudit_sale_items]
        exact h4
      · rw [logAudit_movs]
        exact h5
      · rw [logAudit_audit, h3]
        exact ⟨_, rfl⟩
    · exact ledger_refl db

theorem ledger_getUsers (c : Cred) (db : Db) :
    db.sales <+: (getUsers c db).2.sales ∧
    db.sale_items <+: (getUsers c db).2.sale_items ∧
    db.stock_movements <+: (getUsers c db).2.stock_movements ∧
    db.audit_logs <+: (getUsers c db).2.audit_logs := by
  have h : (getUsers c db).2 = db := by
    cases c with
    | missing => rfl
    | invalid => rfl
    | valid u =>
      simp only [getUsers, authGate]
      split <;> rfl
  rw [h]
  exact ledger_refl db

theorem ledger_getAudit (c : Cred) (db : Db) :
    db.sales <+: (getAudit c db).2.sales ∧
    db.sale_items <+: (getAudit c db).2.sale_items ∧
    db.stock_movements <+: (getAudit c db).2.stock_movements ∧
    db.audit_logs <+: (getAudit c db).2.audit_logs := by
  have h : (getAudit c db).2 = db := by
    cases c with
    | missing => rfl
    | invalid => rfl
    | valid u =>
      simp only [getAudit, authGate]
      split <;> rfl
  rw [h]
  exact ledger_refl db

/-- C8: every API operation - across both backend variants - only ever appends
to the `sales`, `sale_items`, `stock_movements` and `audit_logs` tables: the
rows present before the call are an unchanged prefix of the rows present after
it, so no endpoint updates or deletes a ledger row. -/
theorem ledgers_append_only (op : ApiOp) (db : Db) :
    db.sales <+: (runOp op db).2.sales ∧
    db.sale_items <+: (runOp op db).2.sale_items ∧
    db.stock_movements <+: (runOp op db).2.stock_movements ∧
    db.audit_logs <+: (runOp op db).2.audit_logs := by
  cases op with
  | opLogin username password => exact ledger_login username password db
  | opDashboard c => exact (by cases c <;> exact ledger_refl db)
  | opGetProducts c => exact (by cases c <;> exact ledger_refl db)
  | opPostProducts c f => exact ledger_postProducts c f db
  | opPutProduct c pid f => exact ledger_putProduct c pid f db
  | opRecordSale c items pm total now => exact ledger_recordSale c items pm total now db
  | opRecordSaleHosted c items pm total now =>
    exact ledger_recordSaleHosted c items pm total now db
  | opGetMovements c => exact (by cases c <;> exact ledger_refl db)
  | opGetAudit c => exact ledger_getAudit c db
  | opGetUsers c => exact ledger_getUsers c db
  | opPostUsers c username password name role =>
    exact ledger_postUsers c username password name role db
  | opGetReports c => exact (by cases c <;> exact ledger_refl db)

end Fortmix
